import Mathlib

/-!
Verification of the SourceCred Slack plugin core: the graph-construction
algorithm (`createGraph` together with its address / node / edge builders)
and the mirror repository's versioned, transactional schema initialization
(`SqliteMirrorRepository`).  Everything is a shallow embedding of
`src/plugins/slack/config.js`; parts of the repository that are not in the
source under verification (the read methods of the mirror repository, the
node/edge type declarations, the weight resolver) are modelled from the
spec and marked as such.
-/

namespace Slack

/-! ## JavaScript numbers and timestamps

Message timestamps are computed in the source as
`Number(parseFloat(message.id) * 1000)`.  We model the JS number that
results from `parseFloat` of a decimal string exactly: `fin m e` denotes
the rational `m * 10 ^ e` (double rounding is ignored, which is exact for
the comparisons made here because every record derives its timestamp
through the same function), and `nan` models `NaN`. -/

inductive JsNumber where
  | nan : JsNumber
  | fin : Int → Int → JsNumber
deriving DecidableEq, Repr

/-- A `timestampMs` field of a node or edge: JS `null` or a JS number. -/
inductive JsTimestamp where
  | null : JsTimestamp
  | num : JsNumber → JsTimestamp
deriving DecidableEq, Repr

/-- Value of a list of decimal digit characters. -/
def digitsToNat (ds : List Char) : Nat :=
  ds.foldl (fun a c => 10 * a + (c.toNat - 48)) 0

/-- Optionally signed digit run for a `parseFloat` exponent; JS ignores an
invalid exponent suffix, which we model by returning exponent `0`. -/
def parseSignedDigits (cs : List Char) : Int :=
  match cs with
  | '+' :: rest =>
      if (rest.takeWhile Char.isDigit).isEmpty then 0
      else (digitsToNat (rest.takeWhile Char.isDigit) : Int)
  | '-' :: rest =>
      if (rest.takeWhile Char.isDigit).isEmpty then 0
      else -(digitsToNat (rest.takeWhile Char.isDigit) : Int)
  | _ =>
      if (cs.takeWhile Char.isDigit).isEmpty then 0
      else (digitsToNat (cs.takeWhile Char.isDigit) : Int)

/-- Exponent part (`e`/`E` followed by an optionally signed digit run) of a
`parseFloat` input; anything else contributes exponent `0`. -/
def parseExponentPart (cs : List Char) : Int :=
  match cs with
  | 'e' :: rest => parseSignedDigits rest
  | 'E' :: rest => parseSignedDigits rest
  | _ => 0

/-- Model of ECMAScript `parseFloat` restricted to finite decimal literals:
leading whitespace is skipped, an optional sign, integer digits, an
optional fraction and an optional exponent are consumed as the longest
valid prefix, and any input without a leading decimal literal yields
`NaN`.  (The `Infinity` literal, which cannot occur as a message id, is
not modelled, and the exact decimal value stands in for the rounded
double.) -/
def parseFloat (s : String) : JsNumber :=
  let cs := s.data.dropWhile Char.isWhitespace
  let signedTail : Bool × List Char :=
    match cs with
    | '-' :: t => (true, t)
    | '+' :: t => (false, t)
    | _ => (false, cs)
  let neg := signedTail.1
  let cs1 := signedTail.2
  let intPart := cs1.takeWhile Char.isDigit
  let rest1 := cs1.dropWhile Char.isDigit
  let fracSplit : List Char × List Char :=
    match rest1 with
    | '.' :: t => (t.takeWhile Char.isDigit, t.dropWhile Char.isDigit)
    | _ => ([], rest1)
  let fracPart := fracSplit.1
  let rest2 := fracSplit.2
  if intPart.isEmpty && fracPart.isEmpty then .nan
  else
    let mant : Nat := digitsToNat (intPart ++ fracPart)
    let mantI : Int := if neg then -(mant : Int) else (mant : Int)
    .fin mantI (parseExponentPart rest2 - (fracPart.length : Int))

/-- JS multiplication of a number by `1000` (an exact decimal shift), with
`NaN` propagating; `Number(·)` applied to a number is the identity, so
this models the whole expression `Number(x * 1000)` of the source. -/
def jsMul1000 (x : JsNumber) : JsNumber :=
  match x with
  | .nan => .nan
  | .fin m e => .fin m (e + 3)

/-! ## Strings: `escape` from the `entities` package and `substring` -/

/-- Escape of one character as performed by `escape` of the `entities`
package (XML escaping of `&`, `<`, `>`, `"`, `'`). -/
def escapeChar (c : Char) : String :=
  if c = '&' then "&amp;"
  else if c = '<' then "&lt;"
  else if c = '>' then "&gt;"
  else if c = Char.ofNat 34 then "&quot;"
  else if c = Char.ofNat 39 then "&apos;"
  else String.singleton c

/-- Model of `escape` from the `entities` package: XML-escape every
character of the string. -/
def escape (s : String) : String :=
  String.join (s.data.map escapeChar)

/-- Model of JS `s.substring(0, n)` / `s.slice(0, n)`: the first `n`
characters of `s` (all of `s` when it is shorter). -/
def substringJs (s : String) (n : Nat) : String :=
  String.mk (s.data.take n)

/-! ## Domain model (rows read from the mirror store) -/

/-- A workspace member (`Model.User`).  Fields used by the source:
`id` and `email`. -/
structure User where
  id : String
  name : Option String
  email : String
deriving DecidableEq, Repr

/-- A channel (`Model.Conversation`): id, human-readable name, type. -/
structure Channel where
  id : String
  name : String
  channelType : String
deriving DecidableEq, Repr

/-- A message (`Model.Message`), as read from the mirror store, with the
derived booleans `hasReactions` / `hasMentions` and the list of mentioned
member ids. -/
structure Message where
  channel : String
  id : String
  authorId : String
  text : String
  isThread : Bool
  inReplyTo : String
  hasReactions : Bool
  hasMentions : Bool
  mentions : List String
deriving DecidableEq, Repr

/-- A reaction row (`Model.Reaction`): message reference, reaction name
(emoji key), reactor member id. -/
structure Reaction where
  messageId : String
  reaction : String
  reactor : String
deriving DecidableEq, Repr

/-! ## Node and edge type namespaces

Modelled from the spec: the node/edge type declarations live in
`declaration.js`, which is not part of the source under verification; the
spec specifies that each node/edge variant owns a disjoint namespace
whose leading components identify the variant. -/

def memberNodeNS : List String := ["sourcecred", "slack", "MEMBER"]

def messageNodeNS : List String := ["sourcecred", "slack", "MESSAGE"]

def reactionNodeNS : List String := ["sourcecred", "slack", "REACTION"]

def authorsMessageEdgeNS : List String := ["sourcecred", "slack", "AUTHORS_MESSAGE"]

def addsReactionEdgeNS : List String := ["sourcecred", "slack", "ADDS_REACTION"]

def reactsToEdgeNS : List String := ["sourcecred", "slack", "REACTS_TO"]

def mentionsEdgeNS : List String := ["sourcecred", "slack", "MENTIONS"]

def messageRepliesEdgeNS : List String := ["sourcecred", "slack", "REPLIES_TO"]

/-! ## Addresses (an address is its ordered list of string components) -/

/-- `memberAddress`: member namespace followed by the member's email. -/
def memberAddress (member : User) : List String :=
  memberNodeNS ++ [member.email]

/-- `messageAddress`: message namespace, channel id, message id. -/
def messageAddress (message : Message) : List String :=
  messageNodeNS ++ [message.channel, message.id]

/-- `reactionAddress`: reaction namespace, channel id, reaction name,
message author id, message id. -/
def reactionAddress (reaction : String) (message : Message) : List String :=
  reactionNodeNS ++ [message.channel, reaction, message.authorId, message.id]

/-! ## Nodes -/

structure Node where
  address : List String
  description : String
  timestampMs : JsTimestamp
deriving DecidableEq, Repr

/-- `memberNode`: description embeds the escaped first 20 characters of the
member id; `timestampMs` is `null`. -/
def memberNode (member : User) : Node :=
  { address := memberAddress member
    description := "slack/#" ++ escape (substringJs member.id 20)
    timestampMs := .null }

/-- The fixed maximum length of the message body excerpt. -/
def MESSAGE_LENGTH : Nat := 30

/-- `messageNode`: description embeds the escaped body truncated to
`MESSAGE_LENGTH` characters followed by an ellipsis; `timestampMs` is
`Number(parseFloat(message.id) * 1000)`. -/
def messageNode (message : Message) (channelName : String) : Node :=
  let partialMessage := escape (substringJs message.text MESSAGE_LENGTH)
  { address := messageAddress message
    description := "#" ++ channelName ++ " message [\"" ++ partialMessage ++ "...\"]"
    timestampMs := .num (jsMul1000 (parseFloat message.id)) }

/-- `reactionNode`: the reaction's node, timestamped with the message's
timestamp. -/
def reactionNode (message : Message) (reaction : String) : Node :=
  let reactionStr := reaction
  { address := reactionAddress reaction message
    description := "Reacted `" ++ reactionStr ++ "` to message [" ++ message.id
      ++ "] in channel " ++ message.channel
    timestampMs := .num (jsMul1000 (parseFloat message.id)) }

/-! ## Edges -/

structure Edge where
  address : List String
  timestampMs : JsTimestamp
  src : List String
  dst : List String
deriving DecidableEq, Repr

/-- `authorsMessageEdge`: author's member node to the message node. -/
def authorsMessageEdge (message : Message) (author : User) : Edge :=
  { address := authorsMessageEdgeNS ++ [author.id, message.channel, message.id]
    timestampMs := .num (jsMul1000 (parseFloat message.id))
    src := memberAddress author
    dst := messageAddress message }

/-- `addsReactionEdge`: reacting member's node to the reaction node; uses
the message's timestamp because reactions carry none of their own. -/
def addsReactionEdge (reaction : String) (member : User) (message : Message) : Edge :=
  { address := addsReactionEdgeNS ++ [member.id, reaction, message.channel, message.id]
    timestampMs := .num (jsMul1000 (parseFloat message.id))
    src := memberAddress member
    dst := reactionAddress reaction message }

/-- `reactsToEdge`: reaction node to the reacted-to message node. -/
def reactsToEdge (reaction : String) (message : Message) : Edge :=
  { address := reactsToEdgeNS ++ [reaction, message.authorId, message.channel, message.id]
    timestampMs := .num (jsMul1000 (parseFloat message.id))
    src := reactionAddress reaction message
    dst := messageAddress message }

/-- `mentionsEdge`: message node to the mentioned member's node. -/
def mentionsEdge (message : Message) (member : User) : Edge :=
  { address := mentionsEdgeNS ++ [message.channel, message.authorId, message.id, member.id]
    timestampMs := .num (jsMul1000 (parseFloat message.id))
    src := messageAddress message
    dst := memberAddress member }

/-- `repliesEdge`: thread-starter message node to a reply's message node;
timestamped with the starter's timestamp. -/
def repliesEdge (message : Message) (reply : Message) : Edge :=
  { address := messageRepliesEdgeNS ++
      [message.channel, message.authorId, message.id, reply.channel, reply.authorId, reply.id]
    timestampMs := .num (jsMul1000 (parseFloat message.id))
    src := messageAddress message
    dst := messageAddress reply }

/-! ## The weighted-graph container

The generic graph / weights containers live in `core/graph.js` and
`core/weights.js`, outside this core (external collaborators, interfaces
only).  They are modelled as append-only records of the nodes, edges and
node-weight assignments handed to them: membership in the lists below
means exactly that the corresponding `addNode` / `addEdge` /
`nodeWeights.set` call was made by the graph builder. -/

structure Graph where
  nodes : List Node
  edges : List Edge
deriving DecidableEq, Repr

def Graph.addNode (g : Graph) (n : Node) : Graph :=
  { g with nodes := g.nodes ++ [n] }

def Graph.addEdge (g : Graph) (e : Edge) : Graph :=
  { g with edges := g.edges ++ [e] }

def emptyGraph : Graph := { nodes := [], edges := [] }

/-- Node-weight assignments (`weights.nodeWeights`); `set` prepends so the
newest binding for an address shadows older ones, as in a JS `Map`. -/
structure Weights where
  nodeWeights : List (List String × ℚ)
deriving DecidableEq, Repr

def Weights.setNodeWeight (ws : Weights) (a : List String) (q : ℚ) : Weights :=
  { ws with nodeWeights := (a, q) :: ws.nodeWeights }

def Weights.getNodeWeight (ws : Weights) (a : List String) : Option ℚ :=
  (ws.nodeWeights.find? (fun p => p.1 == a)).map (fun p => p.2)

def emptyWeights : Weights := { nodeWeights := [] }

structure WeightedGraph where
  graph : Graph
  weights : Weights
deriving DecidableEq, Repr

/-! ## Weight configuration and the external weight resolver -/

/-- One weight group of the configuration (`config.js`): a default weight
plus per-key overrides. -/
structure WeightMap where
  defaultWeight : ℚ
  weights : List (String × ℚ)
deriving DecidableEq, Repr

/-- `WeightConfig` (`reactionWeights.js` shape, produced by `_upgrade` in
`config.js`): channel weights and emoji weights. -/
structure WeightConfig where
  channelWeights : WeightMap
  emojiWeights : WeightMap
deriving DecidableEq, Repr

/-- Type of the external weight resolver `reactionWeight(weights,
reactionName, reactorId, messageAuthorId, channelId)`, which is consumed,
not implemented, by this core; `createGraph` takes it as a parameter. -/
def ReactionWeightFn : Type :=
  WeightConfig → String → String → String → String → ℚ

/-! ## The mirror repository's read interface -/

/-- Modelled from the spec: the read methods of `SqliteMirrorRepository`
(`members`, `channels`, `messages`, `reactions`, `thread`, `message`) are
declared by the spec as pure queries over the committed store but their
bodies are not part of the source under verification; a repository
snapshot is therefore modelled as the collection of those query results.
`thread` lists the reply ids of a thread-starter message id; `message`
fetches a single message by id. -/
structure SqliteMirrorRepository where
  members : List User
  channels : List Channel
  messages : String → List Message
  reactions : String → String → List Reaction
  thread : String → List String
  message : String → Message

/-- Lookup in the member map `new Map(repo.members().map((m) => [m.id,
m]))`: for duplicate ids the later entry wins, as in a JS `Map`. -/
def memberMapGet (members : List User) (id : String) : Option User :=
  members.reverse.find? (fun m => m.id == id)

/-! ## `createGraph`

The source's nested loops are decomposed into one named function per loop
body, folded in the source's order; `createGraph` itself assembles them.
-/

/-- The guard `!message.hasReactions && !message.hasMentions` that makes
`createGraph` skip a message outright. -/
def flagSkip (m : Message) : Bool :=
  !m.hasReactions && !m.hasMentions

/-- The thread-starter test `message.isThread && message.inReplyTo ===
message.id`. -/
def starterCheck (m : Message) : Bool :=
  m.isThread && (m.inReplyTo == m.id)

/-- JS string coercion of a `Reaction` row.  The source calls
`reactionNode(message, reaction)` with the whole reaction row where the
declared parameter type is `string` (the edges right below use
`reaction.reaction`); a plain JS object used as a string coerces to
`"[object Object]"`. -/
def jsStringOfReaction (_ : Reaction) : String :=
  "[object Object]"

/-- Body of the `for (const reaction of reactions)` loop: resolve the
reactor (skip the reaction when unknown), record the reaction node's
weight, add the reaction and member nodes and the ReactsTo / AddsReaction
edges, and set the `hasEdges` flag. -/
def reactionStep (rwFn : ReactionWeightFn) (w : WeightConfig) (members : List User)
    (message : Message) (acc : WeightedGraph × Bool) (r : Reaction) :
    WeightedGraph × Bool :=
  match memberMapGet members r.reactor with
  | none => acc
  | some reactingMember =>
      let wg := acc.1
      let node := reactionNode message (jsStringOfReaction r)
      let wg := { wg with
        weights := wg.weights.setNodeWeight node.address
          (rwFn w r.reaction r.reactor message.authorId message.channel) }
      let g := wg.graph.addNode node
      let g := g.addNode (memberNode reactingMember)
      let g := g.addEdge (reactsToEdge r.reaction message)
      let g := g.addEdge (addsReactionEdge r.reaction reactingMember message)
      ({ wg with graph := g }, true)

/-- Body of the `for (const user of message.mentions)` loop: resolve the
mentioned member (skip when unknown), add their node and the Mentions
edge, and set the `hasEdges` flag. -/
def mentionStep (members : List User) (message : Message)
    (acc : WeightedGraph × Bool) (userId : String) : WeightedGraph × Bool :=
  match memberMapGet members userId with
  | none => acc
  | some mentionedMember =>
      let g := acc.1.graph.addNode (memberNode mentionedMember)
      let g := g.addEdge (mentionsEdge message mentionedMember)
      ({ acc.1 with graph := g }, true)

/-- The reaction loop followed by the mention loop, threading the
`hasEdges` flag (initially `false`). -/
def reactionMentionPhase (rwFn : ReactionWeightFn) (w : WeightConfig)
    (repo : SqliteMirrorRepository) (members : List User) (message : Message)
    (wg : WeightedGraph) : WeightedGraph × Bool :=
  let afterReactions :=
    (repo.reactions message.channel message.id).foldl
      (reactionStep rwFn w members message) (wg, false)
  message.mentions.foldl (mentionStep members message) afterReactions

/-- Body of the `for (const replyId of allReplies)` loop: fetch the reply,
add its message node and the RepliesTo edge from the starter. -/
def replyStep (repo : SqliteMirrorRepository) (channelName : String)
    (message : Message) (wg : WeightedGraph) (replyId : String) : WeightedGraph :=
  let replyMessage := repo.message replyId
  let g := wg.graph.addNode (messageNode replyMessage channelName)
  { wg with graph := g.addEdge (repliesEdge message replyMessage) }

/-- The thread-starter block: when the message is a thread starter, add its
message node and process every reply id from the repository. -/
def threadStep (repo : SqliteMirrorRepository) (channelName : String)
    (message : Message) (wg : WeightedGraph) : WeightedGraph :=
  if starterCheck message then
    let wg1 := { wg with graph := wg.graph.addNode (messageNode message channelName) }
    (repo.thread message.id).foldl (replyStep repo channelName message) wg1
  else wg

/-- The authorship block guarded by `hasEdges`: resolve the author (skip
the message when unknown), add the author's member node, the message node
and the AuthorsMessage edge. -/
def authorStep (members : List User) (channelName : String) (message : Message)
    (wg : WeightedGraph) (hasEdges : Bool) : WeightedGraph :=
  if hasEdges then
    match memberMapGet members message.authorId with
    | none => wg
    | some author =>
        let g := wg.graph.addNode (memberNode author)
        let g := g.addNode (messageNode message channelName)
        { wg with graph := g.addEdge (authorsMessageEdge message author) }
  else wg

/-- Per-message body of `createGraph`: skip messages with neither
reactions nor mentions, then run the reaction/mention phase, the
thread-starter block and the authorship block in the source's order. -/
def processMessage (rwFn : ReactionWeightFn) (w : WeightConfig)
    (repo : SqliteMirrorRepository) (members : List User) (channelName : String)
    (wg : WeightedGraph) (message : Message) : WeightedGraph :=
  if flagSkip message then wg
  else
    let p := reactionMentionPhase rwFn w repo members message wg
    let wg2 := threadStep repo channelName message p.1
    authorStep members channelName message wg2 p.2

/-- Per-channel body of `createGraph`: fold over the channel's messages. -/
def processChannel (rwFn : ReactionWeightFn) (w : WeightConfig)
    (repo : SqliteMirrorRepository) (members : List User)
    (wg : WeightedGraph) (channel : Channel) : WeightedGraph :=
  (repo.messages channel.id).foldl
    (processMessage rwFn w repo members channel.name) wg

/-- `createGraph(token, repo, weights)`: build the member map once from the
repository's member list, then process every channel.  The imported
weight resolver `reactionWeight` is passed explicitly as `rwFn`; the
token is not consulted. -/
def createGraph (rwFn : ReactionWeightFn) (_token : String)
    (repo : SqliteMirrorRepository) (w : WeightConfig) : WeightedGraph :=
  let wg : WeightedGraph := { graph := emptyGraph, weights := emptyWeights }
  let members := repo.members
  repo.channels.foldl (processChannel rwFn w repo members) wg

/-! ## The mirror repository's schema initialization

The store is modelled by the state visible to `_initialize`: whether the
`meta` table exists, its rows `(zero, config)`, which content tables have
been created, and whether a transaction is open. -/

structure DbState where
  metaTableExists : Bool
  metaRows : List (Nat × String)
  contentTables : List String
  inTransaction : Bool
deriving DecidableEq, Repr

/-- The schema version constant. -/
def VERSION : String := "slack_mirror_v0"

/-- `stringify(\x7bversion: VERSION\x7d)`: the stable JSON serialization
stored in the `meta` table's single row. -/
def currentConfig : String := "\x7b\"version\":\"slack_mirror_v0\"\x7d"

/-- The five content tables created on first initialization, in creation
order. -/
def contentTableNames : List String :=
  ["channels", "members", "messages", "message_reactions", "message_mentions"]

/-- `CREATE TABLE` (without `IF NOT EXISTS`) of a content table: fails when
the table already exists. -/
def createTable (st : DbState) (name : String) : Except String DbState :=
  if name ∈ st.contentTables then .error ("table exists: " ++ name)
  else .ok { st with contentTables := st.contentTables ++ [name] }

/-- `_initialize`: create the `meta` singleton table if absent, read any
stored config; on a match with the current config treat the store as
already set up (no-op), on any other stored config fail fatally, and on a
pristine store insert the current config and create the five content
tables. -/
def initDb (st : DbState) : Except String DbState :=
  let st := { st with metaTableExists := true }
  let config := currentConfig
  let existingConfig : Option String := st.metaRows.head?.map (fun r => r.2)
  if existingConfig = some config then
    .ok st
  else if existingConfig.isSome then
    .error "Database already populated with incompatible server or version"
  else
    let st := { st with metaRows := st.metaRows ++ [(0, config)] }
    contentTableNames.foldlM createTable st

/-- `_transaction`: reject a nested invocation, `BEGIN`, run the body,
`COMMIT` when the body returns normally with the transaction still open;
the `finally` clause issues `ROLLBACK` whenever the transaction is still
open on the way out, which on a body exception restores the data to its
state at `BEGIN` and re-raises the error. -/
def runTransaction (st : DbState) (body : DbState → Except String DbState) :
    DbState × Option String :=
  if st.inTransaction then (st, some "already in transaction")
  else
    let begun := { st with inTransaction := true }
    match body begun with
    | .ok st2 =>
        if st2.inTransaction then ({ st2 with inTransaction := false }, none)
        else (st2, none)
    | .error e => ({ st with inTransaction := false }, some e)

/-- The `SqliteMirrorRepository` constructor's effect on the store: run
`_initialize` inside the transaction guard. -/
def repositoryConstruct (st : DbState) : DbState × Option String :=
  runTransaction st initDb

/-! ## Derived predicates about the graph builder's decisions -/

/-- Whether a member id resolves in the member map. -/
def knownMember (members : List User) (id : String) : Bool :=
  (memberMapGet members id).isSome

/-- Whether a message has at least one reaction whose reactor resolves
(the reactions that actually materialize edges). -/
def hasLiveReaction (repo : SqliteMirrorRepository) (members : List User)
    (m : Message) : Bool :=
  (repo.reactions m.channel m.id).any (fun r => knownMember members r.reactor)

/-- Whether a message mentions at least one member id that resolves. -/
def hasLiveMention (members : List User) (m : Message) : Bool :=
  m.mentions.any (fun u => knownMember members u)

/-- Provenance of a Message node in the output of `createGraph`: it comes
from a message of some listed channel that passed the reactions/mentions
flag guard and either (a) is a thread starter, the node being the
starter's own or one of its replies', or (b) materialized at least one
reaction or mention edge and has a resolvable author. -/
def MsgNodeProv (repo : SqliteMirrorRepository) (members : List User)
    (n : Node) : Prop :=
  ∃ ch, ch ∈ repo.channels ∧ ∃ m, m ∈ repo.messages ch.id ∧ flagSkip m = false ∧
    ((starterCheck m = true ∧
        (n = messageNode m ch.name ∨
          ∃ rid, rid ∈ repo.thread m.id ∧ n = messageNode (repo.message rid) ch.name))
      ∨ ((hasLiveReaction repo members m || hasLiveMention members m) = true ∧
          knownMember members m.authorId = true ∧ n = messageNode m ch.name))

/-- Provenance of any node added by the graph builder: a member node, a
reaction node, or a message node with `MsgNodeProv` provenance. -/
def NodeProv (repo : SqliteMirrorRepository) (members : List User)
    (n : Node) : Prop :=
  (∃ u, n = memberNode u) ∨ (∃ m s, n = reactionNode m s) ∨ MsgNodeProv repo members n

/-- Provenance of an AuthorsMessage edge: any edge in the AuthorsMessage
namespace was built in the authorship block, for a flag-passing message
with at least one materialized reaction/mention edge and a resolved
author. -/
def AuthorsEdgeProv (repo : SqliteMirrorRepository) (members : List User)
    (e : Edge) : Prop :=
  e.address.take 3 = authorsMessageEdgeNS →
  ∃ ch, ch ∈ repo.channels ∧ ∃ m, m ∈ repo.messages ch.id ∧ flagSkip m = false ∧
    (hasLiveReaction repo members m || hasLiveMention members m) = true ∧
    ∃ a, memberMapGet members m.authorId = some a ∧ e = authorsMessageEdge m a

/-- The provenance invariant maintained by every step of `createGraph`. -/
def GraphProv (repo : SqliteMirrorRepository) (members : List User)
    (wg : WeightedGraph) : Prop :=
  (∀ n ∈ wg.graph.nodes, NodeProv repo members n) ∧
  (∀ e ∈ wg.graph.edges, AuthorsEdgeProv repo members e)

/-- Monotonicity order on weighted graphs: every recorded node and edge of
the first is recorded in the second. -/
def wgLe (a b : WeightedGraph) : Prop :=
  (∀ n, n ∈ a.graph.nodes → n ∈ b.graph.nodes) ∧
  (∀ e, e ∈ a.graph.edges → e ∈ b.graph.edges)

/-- A message with its unresolvable mention ids deleted. -/
def scrubMessage (members : List User) (m : Message) : Message :=
  { m with mentions := m.mentions.filter (fun u => knownMember members u) }

/-- The repository snapshot with every reaction whose reactor does not
resolve, and every mention id that does not resolve, deleted. -/
def scrubRepo (repo : SqliteMirrorRepository) : SqliteMirrorRepository :=
  { repo with
    messages := fun cid => (repo.messages cid).map (scrubMessage repo.members)
    reactions := fun cid mid =>
      (repo.reactions cid mid).filter (fun r => knownMember repo.members r.reactor) }

/-! ## Concrete fixtures used by counterexamples and witnesses -/

/-- A constant weight resolver for concrete runs. -/
def rwFn0 : ReactionWeightFn := fun _ _ _ _ _ => 7

def w0 : WeightConfig := ⟨⟨1, []⟩, ⟨1, []⟩⟩

def wgEmpty : WeightedGraph := ⟨emptyGraph, emptyWeights⟩

def userA : User := ⟨"A", none, "a@example.com"⟩

def userB : User := ⟨"B", none, "b@example.com"⟩

def chanGeneral : Channel := ⟨"C", "general", "public"⟩

/-- A reply message with id `"2"`. -/
def msgReply2 : Message := ⟨"C", "2", "B", "a reply", true, "1", false, false, []⟩

/-- A thread starter (own id as `inReplyTo`) with `hasReactions` and
`hasMentions` both false. -/
def msgStarterNoFlags : Message := ⟨"C", "1", "A", "hi", true, "1", false, false, []⟩

/-- Snapshot containing only `msgStarterNoFlags`, which has one reply. -/
def repoFlagSkip : SqliteMirrorRepository :=
  { members := [userA, userB]
    channels := [chanGeneral]
    messages := fun cid => if cid == "C" then [msgStarterNoFlags] else []
    reactions := fun _ _ => []
    thread := fun mid => if mid == "1" then ["2"] else []
    message := fun _ => msgReply2 }

/-- A thread starter with `hasReactions = true` but no reaction rows and
no mentions. -/
def msgStarterFlagged : Message := ⟨"C", "1", "A", "hi", true, "1", true, false, []⟩

/-- Snapshot containing only `msgStarterFlagged`, which has one reply and
no reaction rows. -/
def repoStarterFlagged : SqliteMirrorRepository :=
  { members := [userA, userB]
    channels := [chanGeneral]
    messages := fun cid => if cid == "C" then [msgStarterFlagged] else []
    reactions := fun _ _ => []
    thread := fun mid => if mid == "1" then ["2"] else []
    message := fun _ => msgReply2 }

/-- Snapshot containing only `msgStarterFlagged` with no replies at all. -/
def repoStarterNoReplies : SqliteMirrorRepository :=
  { members := [userA, userB]
    channels := [chanGeneral]
    messages := fun cid => if cid == "C" then [msgStarterFlagged] else []
    reactions := fun _ _ => []
    thread := fun _ => []
    message := fun _ => msgReply2 }

/-- A thread starter whose author id `"X"` is not in the member list. -/
def msgStarterUnknownAuthor : Message :=
  ⟨"C", "1", "X", "hello", true, "1", true, false, []⟩

/-- Snapshot for the unknown-author scenario: `userB` reacted to
`msgStarterUnknownAuthor`, which also has one reply. -/
def repoUnknownAuthor : SqliteMirrorRepository :=
  { members := [userB]
    channels := [chanGeneral]
    messages := fun cid => if cid == "C" then [msgStarterUnknownAuthor] else []
    reactions := fun cid mid => if cid == "C" && mid == "1" then [⟨"1", "up", "B"⟩] else []
    thread := fun mid => if mid == "1" then ["2"] else []
    message := fun _ => msgReply2 }

/-- A plain message authored by the known member `A`. -/
def msg9 : Message := ⟨"C", "1", "A", "hi", false, "", true, false, []⟩

/-- The reaction row `thumbsup` by `B` on `msg9`. -/
def react9 : Reaction := ⟨"1", "thumbsup", "B"⟩

/-- Snapshot for the reaction-address scenario. -/
def repo9 : SqliteMirrorRepository :=
  { members := [userA, userB]
    channels := [chanGeneral]
    messages := fun cid => if cid == "C" then [msg9] else []
    reactions := fun cid mid => if cid == "C" && mid == "1" then [react9] else []
    thread := fun _ => []
    message := fun _ => msgReply2 }

/-- A message whose id does not parse as a number. -/
def msgAbc : Message := ⟨"C", "abc", "A", "txt", false, "", false, false, []⟩

/-- A pristine store. -/
def dbPristine : DbState := ⟨false, [], [], false⟩

/-- A store already initialized at the current version. -/
def dbCurrent : DbState := ⟨true, [(0, currentConfig)], contentTableNames, false⟩

/-- A store stamped with a different version string. -/
def dbOther : DbState :=
  ⟨true, [(0, "\x7b\"version\":\"slack_mirror_v1\"\x7d")], contentTableNames, false⟩

/-- A transaction body that creates one table and then throws. -/
def bodyBoom : DbState → Except String DbState := fun st =>
  match createTable st "channels" with
  | .ok _ => .error "boom"
  | .error e => .error e

/-! ## Generic fold lemmas -/

theorem foldl_keep {α β : Type} (f : β → α → β) (P : β → Prop)
    (hkeep : ∀ b x, P b → P (f b x)) :
    ∀ (l : List α) (b : β), P b → P (l.foldl f b) := by
  intro l
  induction l with
  | nil => intro b hb; exact hb
  | cons a t ih => intro b hb; exact ih (f b a) (hkeep b a hb)

theorem foldl_keep_mem {α β : Type} (f : β → α → β) (P : β → Prop) :
    ∀ l : List α, (∀ b x, x ∈ l → P b → P (f b x)) →
      ∀ b : β, P b → P (l.foldl f b) := by
  intro l
  induction l with
  | nil => intro _ b hb; exact hb
  | cons a t ih =>
      intro hkeep b hb
      exact ih (fun b2 x hx hb2 => hkeep b2 x (List.mem_cons_of_mem a hx) hb2)
        (f b a) (hkeep b a (List.mem_cons_self a t) hb)

theorem foldl_establish {α β : Type} (f : β → α → β) (P : β → Prop)
    (hkeep : ∀ b x, P b → P (f b x)) :
    ∀ l : List α, ∀ a : α, a ∈ l → (∀ b, P (f b a)) →
      ∀ b : β, P (l.foldl f b) := by
  intro l
  induction l with
  | nil => intro a ha; exact absurd ha (List.not_mem_nil a)
  | cons c t ih =>
      intro a ha hest b
      rcases List.mem_cons.mp ha with h | h
      · subst h
        exact foldl_keep f P hkeep t (f b a) (hest b)
      · exact ih a h hest (f b c)

theorem foldl_congr_fn {α β : Type} (f g : β → α → β) :
    ∀ l : List α, (∀ b x, x ∈ l → f b x = g b x) →
      ∀ b : β, l.foldl f b = l.foldl g b := by
  intro l
  induction l with
  | nil => intro _ _; rfl
  | cons a t ih =>
      intro h b
      simp only [List.foldl_cons]
      rw [h b a (List.mem_cons_self a t)]
      exact ih (fun b2 x hx => h b2 x (List.mem_cons_of_mem a hx)) (g b a)

/-! ## The graph container's record keeping -/

theorem addNode_nodes (g : Graph) (n : Node) : (g.addNode n).nodes = g.nodes ++ [n] := rfl

theorem addNode_edges (g : Graph) (n : Node) : (g.addNode n).edges = g.edges := rfl

theorem addEdge_nodes (g : Graph) (e : Edge) : (g.addEdge e).nodes = g.nodes := rfl

theorem addEdge_edges (g : Graph) (e : Edge) : (g.addEdge e).edges = g.edges ++ [e] := rfl

/-! ## Monotonicity: every step of the builder only records more -/

theorem wgLe_refl (a : WeightedGraph) : wgLe a a :=
  ⟨fun _ h => h, fun _ h => h⟩

theorem wgLe_trans {a b c : WeightedGraph} (h1 : wgLe a b) (h2 : wgLe b c) : wgLe a c :=
  ⟨fun n hn => h2.1 n (h1.1 n hn), fun e he => h2.2 e (h1.2 e he)⟩

theorem wgLe_reactionStep (rwFn : ReactionWeightFn) (w : WeightConfig)
    (members : List User) (message : Message) (acc : WeightedGraph × Bool)
    (r : Reaction) : wgLe acc.1 (reactionStep rwFn w members message acc r).1 := by
  unfold reactionStep
  cases memberMapGet members r.reactor with
  | none => exact wgLe_refl _
  | some u =>
      refine ⟨fun n hn => ?_, fun e he => ?_⟩ <;>
        simp only [addNode_nodes, addNode_edges, addEdge_nodes, addEdge_edges,
          List.mem_append] <;> tauto

theorem wgLe_mentionStep (members : List User) (message : Message)
    (acc : WeightedGraph × Bool) (userId : String) :
    wgLe acc.1 (mentionStep members message acc userId).1 := by
  unfold mentionStep
  cases memberMapGet members userId with
  | none => exact wgLe_refl _
  | some u =>
      refine ⟨fun n hn => ?_, fun e he => ?_⟩ <;>
        simp only [addNode_nodes, addNode_edges, addEdge_nodes, addEdge_edges,
          List.mem_append] <;> tauto

theorem wgLe_replyStep (repo : SqliteMirrorRepository) (channelName : String)
    (message : Message) (wg : WeightedGraph) (replyId : String) :
    wgLe wg (replyStep repo channelName message wg replyId) := by
  unfold replyStep
  refine ⟨fun n hn => ?_, fun e he => ?_⟩ <;>
    simp only [addNode_nodes, addNode_edges, addEdge_nodes, addEdge_edges,
      List.mem_append] <;> tauto

theorem wgLe_foldl {α : Type} (f : WeightedGraph → α → WeightedGraph)
    (hf : ∀ b x, wgLe b (f b x)) (l : List α) (b : WeightedGraph) :
    wgLe b (l.foldl f b) :=
  foldl_keep f (fun x => wgLe b x) (fun b2 x h => wgLe_trans h (hf b2 x)) l b (wgLe_refl b)

theorem wgLe_foldl_pair {α : Type}
    (f : WeightedGraph × Bool → α → WeightedGraph × Bool)
    (hf : ∀ b x, wgLe b.1 (f b x).1) (l : List α) (b : WeightedGraph × Bool) :
    wgLe b.1 (l.foldl f b).1 :=
  foldl_keep f (fun x => wgLe b.1 x.1) (fun b2 x h => wgLe_trans h (hf b2 x)) l b
    (wgLe_refl b.1)

theorem wgLe_threadStep (repo : SqliteMirrorRepository) (channelName : String)
    (message : Message) (wg : WeightedGraph) :
    wgLe wg (threadStep repo channelName message wg) := by
  unfold threadStep
  cases starterCheck message with
  | false => exact wgLe_refl _
  | true =>
      simp only [if_true]
      refine wgLe_trans (b := { wg with graph := wg.graph.addNode (messageNode message channelName) }) ?_ ?_
      · refine ⟨fun n hn => ?_, fun e he => ?_⟩ <;>
          simp only [addNode_nodes, addNode_edges, List.mem_append] <;> tauto
      · exact wgLe_foldl _ (wgLe_replyStep repo channelName message) _ _

theorem wgLe_authorStep (members : List User) (channelName : String)
    (message : Message) (wg : WeightedGraph) (hasEdges : Bool) :
    wgLe wg (authorStep members channelName message wg hasEdges) := by
  unfold authorStep
  cases hasEdges with
  | false => exact wgLe_refl _
  | true =>
      simp only [if_true]
      cases memberMapGet members message.authorId with
      | none => exact wgLe_refl _
      | some a =>
          refine ⟨fun n hn => ?_, fun e he => ?_⟩ <;>
            simp only [addNode_nodes, addNode_edges, addEdge_nodes, addEdge_edges,
              List.mem_append] <;> tauto

theorem wgLe_phase (rwFn : ReactionWeightFn) (w : WeightConfig)
    (repo : SqliteMirrorRepository) (members : List User) (message : Message)
    (wg : WeightedGraph) :
    wgLe wg (reactionMentionPhase rwFn w repo members message wg).1 := by
  unfold reactionMentionPhase
  refine wgLe_trans (b := ((repo.reactions message.channel message.id).foldl
    (reactionStep rwFn w members message) (wg, false)).1) ?_ ?_
  · exact wgLe_foldl_pair _ (wgLe_reactionStep rwFn w members message)
      (repo.reactions message.channel message.id) (wg, false)
  · exact wgLe_foldl_pair _ (wgLe_mentionStep members message) message.mentions _

theorem wgLe_processMessage (rwFn : ReactionWeightFn) (w : WeightConfig)
    (repo : SqliteMirrorRepository) (members : List User) (channelName : String)
    (wg : WeightedGraph) (message : Message) :
    wgLe wg (processMessage rwFn w repo members channelName wg message) := by
  unfold processMessage
  cases flagSkip message with
  | true => exact wgLe_refl _
  | false =>
      simp only [Bool.false_eq_true, if_false]
      exact wgLe_trans (wgLe_phase rwFn w repo members message wg)
        (wgLe_trans (wgLe_threadStep repo channelName message _)
          (wgLe_authorStep members channelName message _ _))

theorem wgLe_processChannel (rwFn : ReactionWeightFn) (w : WeightConfig)
    (repo : SqliteMirrorRepository) (members : List User) (wg : WeightedGraph)
    (channel : Channel) :
    wgLe wg (processChannel rwFn w repo members wg channel) :=
  wgLe_foldl _ (fun b x => wgLe_processMessage rwFn w repo members channel.name b x) _ _

/-! ## What the `hasEdges` flag means -/

theorem reactionFold_snd (rwFn : ReactionWeightFn) (w : WeightConfig)
    (members : List User) (message : Message) :
    ∀ (rs : List Reaction) (acc : WeightedGraph × Bool),
      (rs.foldl (reactionStep rwFn w members message) acc).2
        = (acc.2 || rs.any (fun r => knownMember members r.reactor)) := by
  intro rs
  induction rs with
  | nil => intro acc; simp
  | cons r t ih =>
      intro acc
      simp only [List.foldl_cons, List.any_cons]
      rw [ih]
      unfold reactionStep knownMember
      cases h : memberMapGet members r.reactor <;> simp [h]

theorem mentionFold_snd (members : List User) (message : Message) :
    ∀ (us : List String) (acc : WeightedGraph × Bool),
      (us.foldl (mentionStep members message) acc).2
        = (acc.2 || us.any (fun u => knownMember members u)) := by
  intro us
  induction us with
  | nil => intro acc; simp
  | cons u t ih =>
      intro acc
      simp only [List.foldl_cons, List.any_cons]
      rw [ih]
      unfold mentionStep knownMember
      cases h : memberMapGet members u <;> simp [h]

theorem phase_snd (rwFn : ReactionWeightFn) (w : WeightConfig)
    (repo : SqliteMirrorRepository) (members : List User) (message : Message)
    (wg : WeightedGraph) :
    (reactionMentionPhase rwFn w repo members message wg).2
      = (hasLiveReaction repo members message || hasLiveMention members message) := by
  unfold reactionMentionPhase hasLiveReaction hasLiveMention
  rw [mentionFold_snd, reactionFold_snd]
  simp

/-! ## Leading namespace components of every produced address -/

theorem take3_memberNode (u : User) : (memberNode u).address.take 3 = memberNodeNS := rfl

theorem take3_messageNode (m : Message) (ch : String) :
    (messageNode m ch).address.take 3 = messageNodeNS := rfl

theorem take3_reactionNode (m : Message) (s : String) :
    (reactionNode m s).address.take 3 = reactionNodeNS := rfl

theorem take3_authorsMessageEdge (m : Message) (a : User) :
    (authorsMessageEdge m a).address.take 3 = authorsMessageEdgeNS := rfl

theorem take3_addsReactionEdge (s : String) (u : User) (m : Message) :
    (addsReactionEdge s u m).address.take 3 = addsReactionEdgeNS := rfl

theorem take3_reactsToEdge (s : String) (m : Message) :
    (reactsToEdge s m).address.take 3 = reactsToEdgeNS := rfl

theorem take3_mentionsEdge (m : Message) (u : User) :
    (mentionsEdge m u).address.take 3 = mentionsEdgeNS := rfl

theorem take3_repliesEdge (m reply : Message) :
    (repliesEdge m reply).address.take 3 = messageRepliesEdgeNS := rfl

/-! ## The provenance invariant is preserved by every step -/

theorem prov_reactionStep (repo : SqliteMirrorRepository) (members : List User)
    (rwFn : ReactionWeightFn) (w : WeightConfig) (message : Message)
    (acc : WeightedGraph × Bool) (r : Reaction)
    (hacc : GraphProv repo members acc.1) :
    GraphProv repo members (reactionStep rwFn w members message acc r).1 := by
  unfold reactionStep
  cases memberMapGet members r.reactor with
  | none => exact hacc
  | some u =>
      refine ⟨fun n hn => ?_, fun e he => ?_⟩
      · simp only [addNode_nodes, addNode_edges, addEdge_nodes, List.mem_append,
          List.mem_singleton] at hn
        rcases hn with (hn | hn) | hn
        · exact hacc.1 n hn
        · exact Or.inr (Or.inl ⟨message, jsStringOfReaction r, hn⟩)
        · exact Or.inl ⟨u, hn⟩
      · simp only [addNode_edges, addEdge_edges, List.mem_append,
          List.mem_singleton] at he
        rcases he with (he | he) | he
        · exact hacc.2 e he
        · subst he
          intro habs
          rw [take3_reactsToEdge] at habs
          exact absurd habs (by decide)
        · subst he
          intro habs
          rw [take3_addsReactionEdge] at habs
          exact absurd habs (by decide)

theorem prov_mentionStep (repo : SqliteMirrorRepository) (members : List User)
    (message : Message) (acc : WeightedGraph × Bool) (userId : String)
    (hacc : GraphProv repo members acc.1) :
    GraphProv repo members (mentionStep members message acc userId).1 := by
  unfold mentionStep
  cases memberMapGet members userId with
  | none => exact hacc
  | some u =>
      refine ⟨fun n hn => ?_, fun e he => ?_⟩
      · simp only [addNode_nodes, addEdge_nodes, List.mem_append,
          List.mem_singleton] at hn
        rcases hn with hn | hn
        · exact hacc.1 n hn
        · exact Or.inl ⟨u, hn⟩
      · simp only [addNode_edges, addEdge_edges, List.mem_append,
          List.mem_singleton] at he
        rcases he with he | he
        · exact hacc.2 e he
        · subst he
          intro habs
          rw [take3_mentionsEdge] at habs
          exact absurd habs (by decide)

theorem prov_replyStep (repo : SqliteMirrorRepository) (members : List User)
    (ch : Channel) (m : Message) (hch : ch ∈ repo.channels)
    (hm : m ∈ repo.messages ch.id) (hflag : flagSkip m = false)
    (hstart : starterCheck m = true) (wg : WeightedGraph) (rid : String)
    (hrid : rid ∈ repo.thread m.id) (hwg : GraphProv repo members wg) :
    GraphProv repo members (replyStep repo ch.name m wg rid) := by
  unfold replyStep
  refine ⟨fun n hn => ?_, fun e he => ?_⟩
  · simp only [addNode_nodes, addEdge_nodes, List.mem_append,
      List.mem_singleton] at hn
    rcases hn with hn | hn
    · exact hwg.1 n hn
    · subst hn
      exact Or.inr (Or.inr ⟨ch, hch, m, hm, hflag,
        Or.inl ⟨hstart, Or.inr ⟨rid, hrid, rfl⟩⟩⟩)
  · simp only [addNode_edges, addEdge_edges, List.mem_append,
      List.mem_singleton] at he
    rcases he with he | he
    · exact hwg.2 e he
    · subst he
      intro habs
      rw [take3_repliesEdge] at habs
      exact absurd habs (by decide)

theorem prov_threadStep (repo : SqliteMirrorRepository) (members : List User)
    (ch : Channel) (m : Message) (hch : ch ∈ repo.channels)
    (hm : m ∈ repo.messages ch.id) (hflag : flagSkip m = false)
    (wg : WeightedGraph) (hwg : GraphProv repo members wg) :
    GraphProv repo members (threadStep repo ch.name m wg) := by
  unfold threadStep
  cases hstart : starterCheck m with
  | false => exact hwg
  | true =>
      simp only [if_true]
      refine foldl_keep_mem (replyStep repo ch.name m) (GraphProv repo members)
        (repo.thread m.id)
        (fun b rid hrid hb =>
          prov_replyStep repo members ch m hch hm hflag hstart b rid hrid hb) _ ?_
      refine ⟨fun n hn => ?_, fun e he => ?_⟩
      · simp only [addNode_nodes, List.mem_append, List.mem_singleton] at hn
        rcases hn with hn | hn
        · exact hwg.1 n hn
        · subst hn
          exact Or.inr (Or.inr ⟨ch, hch, m, hm, hflag, Or.inl ⟨hstart, Or.inl rfl⟩⟩)
      · exact hwg.2 e he

theorem prov_authorStep (repo : SqliteMirrorRepository) (members : List User)
    (ch : Channel) (m : Message) (hch : ch ∈ repo.channels)
    (hm : m ∈ repo.messages ch.id) (hflag : flagSkip m = false)
    (wg : WeightedGraph) (he : Bool)
    (hhe : he = true →
      (hasLiveReaction repo members m || hasLiveMention members m) = true)
    (hwg : GraphProv repo members wg) :
    GraphProv repo members (authorStep members ch.name m wg he) := by
  unfold authorStep
  cases he with
  | false => exact hwg
  | true =>
      simp only [if_true]
      cases hauthor : memberMapGet members m.authorId with
      | none => exact hwg
      | some a =>
          refine ⟨fun n hn => ?_, fun e2 he2 => ?_⟩
          · simp only [addNode_nodes, addEdge_nodes, List.mem_append,
              List.mem_singleton] at hn
            rcases hn with (hn | hn) | hn
            · exact hwg.1 n hn
            · subst hn
              exact Or.inl ⟨a, rfl⟩
            · subst hn
              exact Or.inr (Or.inr ⟨ch, hch, m, hm, hflag,
                Or.inr ⟨hhe rfl, by simp [knownMember, hauthor], rfl⟩⟩)
          · simp only [addNode_edges, addEdge_edges, List.mem_append,
              List.mem_singleton] at he2
            rcases he2 with he2 | he2
            · exact hwg.2 e2 he2
            · subst he2
              intro _
              exact ⟨ch, hch, m, hm, hflag, hhe rfl, a, hauthor, rfl⟩

theorem prov_processMessage (rwFn : ReactionWeightFn) (w : WeightConfig)
    (repo : SqliteMirrorRepository) (members : List User) (ch : Channel)
    (hch : ch ∈ repo.channels) (wg : WeightedGraph) (m : Message)
    (hm : m ∈ repo.messages ch.id) (hwg : GraphProv repo members wg) :
    GraphProv repo members (processMessage rwFn w repo members ch.name wg m) := by
  unfold processMessage
  cases hflag : flagSkip m with
  | true => exact hwg
  | false =>
      simp only [Bool.false_eq_true, if_false]
      have hphase :
          GraphProv repo members (reactionMentionPhase rwFn w repo members m wg).1 := by
        unfold reactionMentionPhase
        refine foldl_keep (mentionStep members m)
          (fun p => GraphProv repo members p.1)
          (fun b x hb => prov_mentionStep repo members m b x hb) _ _ ?_
        exact foldl_keep (reactionStep rwFn w members m)
          (fun p => GraphProv repo members p.1)
          (fun b x hb => prov_reactionStep repo members rwFn w m b x hb) _ (wg, false) hwg
      have hthread := prov_threadStep repo members ch m hch hm hflag _ hphase
      exact prov_authorStep repo members ch m hch hm hflag _ _
        (fun h2 => by
          rw [← phase_snd rwFn w repo members m wg]
          exact h2) hthread

theorem prov_processChannel (rwFn : ReactionWeightFn) (w : WeightConfig)
    (repo : SqliteMirrorRepository) (members : List User) (ch : Channel)
    (hch : ch ∈ repo.channels) (wg : WeightedGraph)
    (hwg : GraphProv repo members wg) :
    GraphProv repo members (processChannel rwFn w repo members wg ch) := by
  unfold processChannel
  exact foldl_keep_mem (processMessage rwFn w repo members ch.name)
    (GraphProv repo members) (repo.messages ch.id)
    (fun b m hm hb => prov_processMessage rwFn w repo members ch hch b m hm hb) _ hwg

/-- Every node and edge recorded by `createGraph` satisfies the
provenance invariant. -/
theorem createGraph_prov (rwFn : ReactionWeightFn) (token : String)
    (repo : SqliteMirrorRepository) (w : WeightConfig) :
    GraphProv repo repo.members (createGraph rwFn token repo w) := by
  unfold createGraph
  exact foldl_keep_mem (processChannel rwFn w repo repo.members)
    (GraphProv repo repo.members) repo.channels
    (fun b ch hch hb => prov_processChannel rwFn w repo repo.members ch hch b hb) _
    ⟨fun n hn => absurd hn (List.not_mem_nil n),
      fun e he => absurd he (List.not_mem_nil e)⟩

/-- C3: constructing `SqliteMirrorRepository` on a store whose `meta`
table already holds the current version config succeeds idempotently as a
no-op; on a store whose `meta` table holds any different stored config it
raises the fatal incompatibility error leaving the store unchanged; and
on a pristine store it writes the current version and creates the five
content tables. -/
theorem c3_version_guard (st : DbState) (hni : st.inTransaction = false) :
    (∀ z, st.metaRows.head? = some (z, currentConfig) → st.metaTableExists = true →
      repositoryConstruct st = (st, none))
    ∧ (∀ c, st.metaRows.head? = some c → c.2 ≠ currentConfig →
      repositoryConstruct st
        = (st, some "Database already populated with incompatible server or version"))
    ∧ (st.metaRows = [] → st.contentTables = [] →
      repositoryConstruct st
        = ({ st with
              metaTableExists := true
              metaRows := [(0, currentConfig)]
              contentTables := contentTableNames }, none)) := by
  obtain ⟨mte, rows, tbls, intx⟩ := st
  replace hni : intx = false := hni
  subst hni
  refine ⟨?_, ?_, ?_⟩
  · intro z hz hmte
    replace hmte : mte = true := hmte
    subst hmte
    replace hz : rows.head? = some (z, currentConfig) := hz
    cases rows with
    | nil => exact absurd hz (by simp)
    | cons r rs =>
        replace hz : r = (z, currentConfig) := by
          simpa using hz
        subst hz
        rfl
  · intro c hc hne
    replace hc : rows.head? = some c := hc
    cases rows with
    | nil => exact absurd hc (by simp)
    | cons r rs =>
        replace hc : r = c := by simpa using hc
        subst hc
        unfold repositoryConstruct runTransaction initDb
        simp [hne]
  · intro h1 h2
    replace h1 : rows = [] := h1
    replace h2 : tbls = [] := h2
    subst h1
    subst h2
    rfl

/-- C3 witness: concrete runs on an already-current store, a pristine
store and a store stamped with a different version. -/
theorem c3_version_guard_witness :
    repositoryConstruct dbCurrent = (dbCurrent, none)
    ∧ repositoryConstruct dbPristine
      = ({ dbPristine with
            metaTableExists := true
            metaRows := [(0, currentConfig)]
            contentTables := contentTableNames }, none)
    ∧ repositoryConstruct dbOther
      = (dbOther, some "Database already populated with incompatible server or version") := by
  refine ⟨?_, ?_, ?_⟩
  · exact (c3_version_guard dbCurrent rfl).1 0 rfl rfl
  · exact (c3_version_guard dbPristine rfl).2.2 rfl rfl
  · exact (c3_version_guard dbOther rfl).2.1
      (0, "\x7b\"version\":\"slack_mirror_v1\"\x7d") rfl (by decide)

/-- C4: the transaction guard throws if a transaction is already open;
otherwise it begins a transaction, runs the body, commits on normal
return, and on any exception thrown by the body rolls back, so the store
(in particular any tables the guarded body created) is exactly as it was
before. -/
theorem c4_transaction_guard (st : DbState) (body : DbState → Except String DbState) :
    (st.inTransaction = true →
      runTransaction st body = (st, some "already in transaction"))
    ∧ (st.inTransaction = false →
        (∀ st2, body { st with inTransaction := true } = .ok st2 →
          st2.inTransaction = true →
          runTransaction st body = ({ st2 with inTransaction := false }, none))
        ∧ (∀ e, body { st with inTransaction := true } = .error e →
          runTransaction st body = (st, some e))) := by
  obtain ⟨mte, rows, tbls, intx⟩ := st
  refine ⟨fun h => ?_, fun h => ⟨fun st2 hb h2 => ?_, fun e hb => ?_⟩⟩
  · replace h : intx = true := h
    subst h
    rfl
  · replace h : intx = false := h
    subst h
    unfold runTransaction
    simp only [hb]
    simp [h2]
  · replace h : intx = false := h
    subst h
    unfold runTransaction
    simp only [hb]
    simp

/-- C4 witness: a body that creates one table and then throws leaves the
pristine store with no tables (full rollback), and the error is
propagated. -/
theorem c4_transaction_guard_witness :
    runTransaction dbPristine bodyBoom = (dbPristine, some "boom")
    ∧ bodyBoom { dbPristine with inTransaction := true } = .error "boom"
    ∧ (runTransaction dbPristine bodyBoom).1.contentTables = [] := by
  refine ⟨?_, rfl, ?_⟩
  · exact ((c4_transaction_guard dbPristine bodyBoom).2 rfl).2 "boom" rfl
  · rw [((c4_transaction_guard dbPristine bodyBoom).2 rfl).2 "boom" rfl]
    rfl

/-- C7: every Message node, Reaction node and every edge variant derived
from a message `m` has `timestampMs` equal to
`Number(parseFloat(m.id) * 1000)` — reactions and authorship records
reuse the message's timestamp — and a message id that does not parse as a
number silently yields the NaN timestamp in the produced records rather
than an error. -/
theorem c7_timestamps (m : Message) (ch : String) (s : String) (u : User)
    (reply : Message) :
    (messageNode m ch).timestampMs = .num (jsMul1000 (parseFloat m.id))
    ∧ (reactionNode m s).timestampMs = .num (jsMul1000 (parseFloat m.id))
    ∧ (authorsMessageEdge m u).timestampMs = .num (jsMul1000 (parseFloat m.id))
    ∧ (addsReactionEdge s u m).timestampMs = .num (jsMul1000 (parseFloat m.id))
    ∧ (reactsToEdge s m).timestampMs = .num (jsMul1000 (parseFloat m.id))
    ∧ (mentionsEdge m u).timestampMs = .num (jsMul1000 (parseFloat m.id))
    ∧ (repliesEdge m reply).timestampMs = .num (jsMul1000 (parseFloat m.id))
    ∧ (parseFloat m.id = JsNumber.nan →
        (messageNode m ch).timestampMs = .num JsNumber.nan
        ∧ (repliesEdge m reply).timestampMs = .num JsNumber.nan) := by
  refine ⟨rfl, rfl, rfl, rfl, rfl, rfl, rfl, fun h => ?_⟩
  constructor <;> simp [messageNode, repliesEdge, h, jsMul1000]

/-- C7 witness: the non-numeric message id `"abc"` yields the NaN
timestamp in the produced records. -/
theorem c7_timestamps_witness :
    parseFloat msgAbc.id = JsNumber.nan
    ∧ (messageNode msgAbc "general").timestampMs = .num JsNumber.nan
    ∧ (repliesEdge msgAbc msgReply2).timestampMs = .num JsNumber.nan := by
  refine ⟨by decide, ?_, ?_⟩
  · exact ((c7_timestamps msgAbc "general" "s" userA msgReply2).2.2.2.2.2.2.2
      (by decide)).1
  · exact ((c7_timestamps msgAbc "general" "s" userA msgReply2).2.2.2.2.2.2.2
      (by decide)).2

/-- C8: the Message node's description embeds the HTML-escaped message
body truncated to the fixed maximum of `MESSAGE_LENGTH = 30` characters,
followed by the ellipsis marker: the body is cut to at most 30 characters
and escaped before being embedded. -/
theorem c8_description (m : Message) (channelName : String) :
    (messageNode m channelName).description
      = "#" ++ channelName ++ " message [\""
        ++ escape (substringJs m.text MESSAGE_LENGTH) ++ "...\"]"
    ∧ MESSAGE_LENGTH = 30
    ∧ (substringJs m.text MESSAGE_LENGTH).length ≤ 30 := by
  refine ⟨rfl, rfl, ?_⟩
  show (m.text.data.take MESSAGE_LENGTH).length ≤ 30
  rw [List.length_take]
  exact Nat.min_le_left _ _

/-- C10: every Member node produced by the graph builder — whether for a
reactor, a mentioned member, or a message author — has `timestampMs`
equal to `null`. -/
theorem c10_member_timestamp_null (rwFn : ReactionWeightFn) (token : String)
    (repo : SqliteMirrorRepository) (w : WeightConfig) (n : Node)
    (hn : n ∈ (createGraph rwFn token repo w).graph.nodes)
    (hp : n.address.take 3 = memberNodeNS) :
    n.timestampMs = JsTimestamp.null := by
  rcases (createGraph_prov rwFn token repo w).1 n hn with ⟨u, rfl⟩ | ⟨m, s, rfl⟩ | hmsg
  · rfl
  · rw [take3_reactionNode] at hp
    exact absurd hp (by decide)
  · rcases hmsg with ⟨ch, _, m, _, _, hcase⟩
    rcases hcase with ⟨_, hn2 | ⟨rid, _, hn2⟩⟩ | ⟨_, _, hn2⟩ <;>
      (subst hn2; rw [take3_messageNode] at hp; exact absurd hp (by decide))

/-- C10 witness: the reactor `userB` appears as a Member node in a
concrete run and its timestamp is `null`. -/
theorem c10_member_timestamp_null_witness :
    (memberNode userB).timestampMs = JsTimestamp.null :=
  c10_member_timestamp_null rwFn0 "t" repo9 w0 (memberNode userB)
    (by decide) (by decide)

/-! ## Dropping unresolvable reactions and mentions is invisible -/

theorem reactionStep_unknown (rwFn : ReactionWeightFn) (w : WeightConfig)
    (members : List User) (m : Message) (acc : WeightedGraph × Bool) (r : Reaction)
    (h : memberMapGet members r.reactor = none) :
    reactionStep rwFn w members m acc r = acc := by
  unfold reactionStep
  rw [h]

theorem mentionStep_unknown (members : List User) (m : Message)
    (acc : WeightedGraph × Bool) (userId : String)
    (h : memberMapGet members userId = none) :
    mentionStep members m acc userId = acc := by
  unfold mentionStep
  rw [h]

theorem reactionFold_filter (rwFn : ReactionWeightFn) (w : WeightConfig)
    (members : List User) (m : Message) :
    ∀ (rs : List Reaction) (acc : WeightedGraph × Bool),
      (rs.filter (fun r => knownMember members r.reactor)).foldl
          (reactionStep rwFn w members m) acc
        = rs.foldl (reactionStep rwFn w members m) acc := by
  intro rs
  induction rs with
  | nil => intro acc; rfl
  | cons r t ih =>
      intro acc
      cases hmm : memberMapGet members r.reactor with
      | none =>
          have hfilter : (r :: t).filter (fun x => knownMember members x.reactor)
              = t.filter (fun x => knownMember members x.reactor) := by
            simp [List.filter_cons, knownMember, hmm]
          rw [hfilter, ih, List.foldl_cons,
            reactionStep_unknown rwFn w members m acc r hmm]
      | some u =>
          have hfilter : (r :: t).filter (fun x => knownMember members x.reactor)
              = r :: t.filter (fun x => knownMember members x.reactor) := by
            simp [List.filter_cons, knownMember, hmm]
          rw [hfilter, List.foldl_cons, List.foldl_cons, ih]

theorem mentionFold_filter (members : List User) (m : Message) :
    ∀ (us : List String) (acc : WeightedGraph × Bool),
      (us.filter (fun u => knownMember members u)).foldl
          (mentionStep members m) acc
        = us.foldl (mentionStep members m) acc := by
  intro us
  induction us with
  | nil => intro acc; rfl
  | cons u t ih =>
      intro acc
      cases hmm : memberMapGet members u with
      | none =>
          have hfilter : (u :: t).filter (fun x => knownMember members x)
              = t.filter (fun x => knownMember members x) := by
            simp [List.filter_cons, knownMember, hmm]
          rw [hfilter, ih, List.foldl_cons, mentionStep_unknown members m acc u hmm]
      | some v =>
          have hfilter : (u :: t).filter (fun x => knownMember members x)
              = u :: t.filter (fun x => knownMember members x) := by
            simp [List.filter_cons, knownMember, hmm]
          rw [hfilter, List.foldl_cons, List.foldl_cons, ih]

theorem phase_scrub (rwFn : ReactionWeightFn) (w : WeightConfig)
    (repo : SqliteMirrorRepository) (m : Message) (wg : WeightedGraph) :
    reactionMentionPhase rwFn w (scrubRepo repo) repo.members
        (scrubMessage repo.members m) wg
      = reactionMentionPhase rwFn w repo repo.members m wg := by
  unfold reactionMentionPhase
  have hreact : (scrubRepo repo).reactions (scrubMessage repo.members m).channel
      (scrubMessage repo.members m).id
      = (repo.reactions m.channel m.id).filter
          (fun r => knownMember repo.members r.reactor) := rfl
  rw [hreact]
  have hstep : ∀ (acc : WeightedGraph × Bool) (r : Reaction),
      reactionStep rwFn w repo.members (scrubMessage repo.members m) acc r
        = reactionStep rwFn w repo.members m acc r := fun _ _ => rfl
  rw [foldl_congr_fn _ _ _ (fun b x _ => hstep b x) _]
  rw [reactionFold_filter]
  have hmen : (scrubMessage repo.members m).mentions
      = m.mentions.filter (fun u => knownMember repo.members u) := rfl
  rw [hmen]
  have hstep2 : ∀ (acc : WeightedGraph × Bool) (u : String),
      mentionStep repo.members (scrubMessage repo.members m) acc u
        = mentionStep repo.members m acc u := fun _ _ => rfl
  rw [foldl_congr_fn _ _ _ (fun b x _ => hstep2 b x) _]
  rw [mentionFold_filter]

theorem processMessage_scrub (rwFn : ReactionWeightFn) (w : WeightConfig)
    (repo : SqliteMirrorRepository) (chName : String) (wg : WeightedGraph)
    (m : Message) :
    processMessage rwFn w (scrubRepo repo) repo.members chName wg
        (scrubMessage repo.members m)
      = processMessage rwFn w repo repo.members chName wg m := by
  unfold processMessage
  have hflag : flagSkip (scrubMessage repo.members m) = flagSkip m := rfl
  rw [hflag]
  cases hf : flagSkip m with
  | true => rfl
  | false =>
      simp only [Bool.false_eq_true, if_false]
      rw [phase_scrub]
      have hthread : ∀ x, threadStep (scrubRepo repo) chName (scrubMessage repo.members m) x
          = threadStep repo chName m x := fun _ => rfl
      rw [hthread]
      have hauthor : ∀ x b, authorStep repo.members chName (scrubMessage repo.members m) x b
          = authorStep repo.members chName m x b := fun _ _ => rfl
      rw [hauthor]

theorem processChannel_scrub (rwFn : ReactionWeightFn) (w : WeightConfig)
    (repo : SqliteMirrorRepository) (wg : WeightedGraph) (ch : Channel) :
    processChannel rwFn w (scrubRepo repo) repo.members wg ch
      = processChannel rwFn w repo repo.members wg ch := by
  unfold processChannel
  have hmsgs : (scrubRepo repo).messages ch.id
      = (repo.messages ch.id).map (scrubMessage repo.members) := rfl
  rw [hmsgs, List.foldl_map]
  exact foldl_congr_fn _ _ (repo.messages ch.id)
    (fun b x _ => processMessage_scrub rwFn w repo ch.name b x) wg

/-- C5: a reaction whose reactor id, or a mention whose mentioned user id,
is absent from the member map is dropped silently and contributes
nothing: the graph built from the snapshot equals the graph built from
the snapshot with all such reactions and mentions deleted, so all other
nodes and edges still appear and no error is raised (the builder is a
total function). -/
theorem c5_referential_tolerance (rwFn : ReactionWeightFn) (token : String)
    (repo : SqliteMirrorRepository) (w : WeightConfig) :
    createGraph rwFn token repo w = createGraph rwFn token (scrubRepo repo) w := by
  unfold createGraph
  have hch : (scrubRepo repo).channels = repo.channels := rfl
  have hmem : (scrubRepo repo).members = repo.members := rfl
  rw [hch, hmem]
  exact (foldl_congr_fn _ _ repo.channels
    (fun b x _ => processChannel_scrub rwFn w repo b x) _).symm

/-- C6 counterexample: `msgStarterUnknownAuthor` accumulated a reaction
edge and its author id `"X"` is absent from the member map, yet its
Message node is in the output — added by the thread-starter block — so
the claim that the message's Message node is omitted fails. -/
theorem c6_counterexample :
    memberMapGet repoUnknownAuthor.members msgStarterUnknownAuthor.authorId = none
    ∧ (reactionMentionPhase rwFn0 w0 repoUnknownAuthor repoUnknownAuthor.members
        msgStarterUnknownAuthor wgEmpty).2 = true
    ∧ messageNode msgStarterUnknownAuthor "general"
        ∈ (createGraph rwFn0 "t" repoUnknownAuthor w0).graph.nodes := by
  refine ⟨by decide, by decide, by decide⟩

/-- C6 (amended): for a message that accumulated at least one reaction or
mention edge, when its author id is absent from the member map the
authorship block adds nothing — no author Member node, no AuthorsMessage
edge, and no Message node beyond what the thread-starter block may
already have added — while every node and edge added by the
reaction/mention phase remains in the output; when the author is known,
the author's Member node, the Message node and the AuthorsMessage edge
(author → message) are added on top. -/
theorem c6_author_gate (rwFn : ReactionWeightFn) (w : WeightConfig)
    (repo : SqliteMirrorRepository) (members : List User) (chName : String)
    (m : Message) (wg : WeightedGraph)
    (hflag : flagSkip m = false)
    (hhe : (reactionMentionPhase rwFn w repo members m wg).2 = true) :
    (memberMapGet members m.authorId = none →
      processMessage rwFn w repo members chName wg m
        = threadStep repo chName m (reactionMentionPhase rwFn w repo members m wg).1)
    ∧ (∀ a, memberMapGet members m.authorId = some a →
      processMessage rwFn w repo members chName wg m
        = { threadStep repo chName m (reactionMentionPhase rwFn w repo members m wg).1 with
            graph := (((threadStep repo chName m
                (reactionMentionPhase rwFn w repo members m wg).1).graph.addNode
                  (memberNode a)).addNode (messageNode m chName)).addEdge
                    (authorsMessageEdge m a) })
    ∧ (∀ n, n ∈ (reactionMentionPhase rwFn w repo members m wg).1.graph.nodes →
        n ∈ (processMessage rwFn w repo members chName wg m).graph.nodes)
    ∧ (∀ e, e ∈ (reactionMentionPhase rwFn w repo members m wg).1.graph.edges →
        e ∈ (processMessage rwFn w repo members chName wg m).graph.edges) := by
  have hpm : processMessage rwFn w repo members chName wg m
      = authorStep members chName m
          (threadStep repo chName m (reactionMentionPhase rwFn w repo members m wg).1)
          (reactionMentionPhase rwFn w repo members m wg).2 := by
    unfold processMessage
    rw [hflag]
    simp only [Bool.false_eq_true, if_false]
  rw [hpm, hhe]
  refine ⟨fun hnone => ?_, fun a ha => ?_, fun n hn => ?_, fun e he2 => ?_⟩
  · unfold authorStep
    rw [hnone]
    simp
  · unfold authorStep
    rw [ha]
    simp
  · exact (wgLe_authorStep members chName m _ true).1 n
      ((wgLe_threadStep repo chName m _).1 n hn)
  · exact (wgLe_authorStep members chName m _ true).2 e
      ((wgLe_threadStep repo chName m _).2 e he2)

/-- C6 witness: in the unknown-author scenario the whole message step
equals the thread block applied to the reaction/mention phase result —
the authorship block contributed nothing and the reaction edges
remain. -/
theorem c6_author_gate_witness :
    processMessage rwFn0 w0 repoUnknownAuthor repoUnknownAuthor.members "general"
        wgEmpty msgStarterUnknownAuthor
      = threadStep repoUnknownAuthor "general" msgStarterUnknownAuthor
          (reactionMentionPhase rwFn0 w0 repoUnknownAuthor repoUnknownAuthor.members
            msgStarterUnknownAuthor wgEmpty).1 :=
  (c6_author_gate rwFn0 w0 repoUnknownAuthor repoUnknownAuthor.members "general"
    msgStarterUnknownAuthor wgEmpty (by decide) (by decide)).1 (by decide)

/-- C9: the reaction node's address diverges from its specification.
`createGraph` passes the whole reaction row to `reactionNode` where the
declared parameter type is the reaction-name string (the edges right
below correctly use `reaction.reaction`), so the produced node's third
address component is the coerced row `"[object Object]"` instead of the
reaction name; the Flow-typed `reactionAddress` applied to the name gives
the claimed address, which no node of the output carries.  The weight is
assigned to that (malformed) reaction node exactly as the resolver
returns it for (weights, reaction name, reactor, author, channel). -/
theorem c9_reaction_address_bug :
    reactionAddress react9.reaction msg9
      = reactionNodeNS ++ [msg9.channel, react9.reaction, msg9.authorId, msg9.id]
    ∧ (reactionNode msg9 (jsStringOfReaction react9)).address
      = reactionNodeNS ++ ["C", "[object Object]", "A", "1"]
    ∧ reactionNode msg9 (jsStringOfReaction react9)
        ∈ (createGraph rwFn0 "t" repo9 w0).graph.nodes
    ∧ (createGraph rwFn0 "t" repo9 w0).weights.getNodeWeight
        (reactionNode msg9 (jsStringOfReaction react9)).address
      = some (rwFn0 w0 react9.reaction react9.reactor msg9.authorId msg9.channel)
    ∧ ¬ (∃ n, n ∈ (createGraph rwFn0 "t" repo9 w0).graph.nodes
          ∧ n.address = reactionAddress react9.reaction msg9) := by
  refine ⟨rfl, rfl, by decide, by decide, by decide⟩

/-- C1 counterexample: `msgStarterNoFlags` is a thread starter with one
known reply, but `hasReactions` and `hasMentions` are both false, so
`createGraph` skips it at the initial guard: the output graph is empty —
no Message nodes and no RepliesTo edges appear, contradicting the claim
that the thread block runs unconditionally. -/
theorem c1_counterexample :
    starterCheck msgStarterNoFlags = true
    ∧ repoFlagSkip.thread msgStarterNoFlags.id = ["2"]
    ∧ (createGraph rwFn0 "t" repoFlagSkip w0).graph.nodes = []
    ∧ (createGraph rwFn0 "t" repoFlagSkip w0).graph.edges = [] := by
  refine ⟨by decide, by decide, by decide, by decide⟩

/-- C2 counterexample: `msgStarterFlagged` has zero reaction rows, zero
mentions and zero known replies — by the claim (not being a thread
starter with at least one reply) no Message node should be produced for
it — yet its Message node is the only node of the output, added by the
thread-starter block regardless of replies. -/
theorem c2_counterexample :
    repoStarterNoReplies.reactions msgStarterFlagged.channel msgStarterFlagged.id = []
    ∧ msgStarterFlagged.mentions = []
    ∧ repoStarterNoReplies.thread msgStarterFlagged.id = []
    ∧ (createGraph rwFn0 "t" repoStarterNoReplies w0).graph.nodes
      = [messageNode msgStarterFlagged "general"] := by
  refine ⟨by decide, by decide, by decide, by decide⟩

/-- C2 (amended): every Message node of the output belongs to a message of
a listed channel that passed the reactions/mentions flag guard and either
is a thread starter (its node is added even with zero known replies), is
a known reply of such a thread starter, or materialized at least one
reaction or mention edge and has a known author; in particular a message
with zero materialized reactions and mentions that is neither a
flag-passing thread starter nor a reply of one yields no Message node. -/
theorem c2_message_node_provenance (rwFn : ReactionWeightFn) (token : String)
    (repo : SqliteMirrorRepository) (w : WeightConfig) (n : Node)
    (hn : n ∈ (createGraph rwFn token repo w).graph.nodes)
    (hp : n.address.take 3 = messageNodeNS) :
    MsgNodeProv repo repo.members n := by
  rcases (createGraph_prov rwFn token repo w).1 n hn with ⟨u, rfl⟩ | ⟨m2, s, rfl⟩ | hmsg
  · rw [take3_memberNode] at hp
    exact absurd hp (by decide)
  · rw [take3_reactionNode] at hp
    exact absurd hp (by decide)
  · exact hmsg

/-- C2 witness: the zero-reply thread starter's Message node has
thread-starter provenance in the concrete run. -/
theorem c2_message_node_provenance_witness :
    MsgNodeProv repoStarterNoReplies repoStarterNoReplies.members
      (messageNode msgStarterFlagged "general") :=
  c2_message_node_provenance rwFn0 "t" repoStarterNoReplies w0
    (messageNode msgStarterFlagged "general") (by decide) (by decide)

/-- C1 (amended): for every thread-starter message that passes the
reactions/mentions flag guard, `createGraph` adds the starter's Message
node and, for every reply id, that reply's Message node and a RepliesTo
edge from starter to reply, independently of the `hasEdges` flag; and
when the starter materialized no reaction or mention edge, no
AuthorsMessage edge pointing at it appears (assuming the repository is
well-formed: messages listed for a channel carry that channel's id and
message ids are unique within the channel).  A thread starter whose two
flags are both false is instead skipped entirely by the initial guard. -/
theorem c1_thread_starter (rwFn : ReactionWeightFn) (token : String)
    (repo : SqliteMirrorRepository) (w : WeightConfig) (ch : Channel) (m : Message)
    (hch : ch ∈ repo.channels) (hm : m ∈ repo.messages ch.id)
    (hflag : flagSkip m = false) (hstart : starterCheck m = true)
    (hwf1 : ∀ c2, c2 ∈ repo.channels → ∀ m2, m2 ∈ repo.messages c2.id →
      m2.channel = c2.id)
    (hwf2 : ∀ m1, m1 ∈ repo.messages ch.id → ∀ m2, m2 ∈ repo.messages ch.id →
      m1.id = m2.id → m1 = m2) :
    messageNode m ch.name ∈ (createGraph rwFn token repo w).graph.nodes
    ∧ (∀ rid, rid ∈ repo.thread m.id →
        messageNode (repo.message rid) ch.name
          ∈ (createGraph rwFn token repo w).graph.nodes
        ∧ repliesEdge m (repo.message rid)
          ∈ (createGraph rwFn token repo w).graph.edges)
    ∧ ((hasLiveReaction repo repo.members m || hasLiveMention repo.members m) = false →
        ∀ e, e ∈ (createGraph rwFn token repo w).graph.edges →
          e.address.take 3 = authorsMessageEdgeNS → e.dst ≠ messageAddress m) := by
  have hpm : ∀ wg, processMessage rwFn w repo repo.members ch.name wg m
      = authorStep repo.members ch.name m
          (threadStep repo ch.name m
            (reactionMentionPhase rwFn w repo repo.members m wg).1)
          (reactionMentionPhase rwFn w repo repo.members m wg).2 := by
    intro wg
    unfold processMessage
    rw [hflag]
    simp only [Bool.false_eq_true, if_false]
  have hts : ∀ x, threadStep repo ch.name m x
      = (repo.thread m.id).foldl (replyStep repo ch.name m)
          { x with graph := x.graph.addNode (messageNode m ch.name) } := by
    intro x
    unfold threadStep
    rw [hstart]
    simp only [if_true]
  have liftNode : ∀ nd : Node,
      (∀ wg, nd ∈ (processMessage rwFn w repo repo.members ch.name wg m).graph.nodes) →
      nd ∈ (createGraph rwFn token repo w).graph.nodes := by
    intro nd hest
    unfold createGraph
    refine foldl_establish (processChannel rwFn w repo repo.members)
      (fun wg => nd ∈ wg.graph.nodes)
      (fun b x hb => (wgLe_processChannel rwFn w repo repo.members b x).1 nd hb)
      repo.channels ch hch (fun b => ?_) _
    unfold processChannel
    exact foldl_establish (processMessage rwFn w repo repo.members ch.name)
      (fun wg => nd ∈ wg.graph.nodes)
      (fun b2 x hb => (wgLe_processMessage rwFn w repo repo.members ch.name b2 x).1 nd hb)
      (repo.messages ch.id) m hm (fun b2 => hest b2) b
  have liftEdge : ∀ ed : Edge,
      (∀ wg, ed ∈ (processMessage rwFn w repo repo.members ch.name wg m).graph.edges) →
      ed ∈ (createGraph rwFn token repo w).graph.edges := by
    intro ed hest
    unfold createGraph
    refine foldl_establish (processChannel rwFn w repo repo.members)
      (fun wg => ed ∈ wg.graph.edges)
      (fun b x hb => (wgLe_processChannel rwFn w repo repo.members b x).2 ed hb)
      repo.channels ch hch (fun b => ?_) _
    unfold processChannel
    exact foldl_establish (processMessage rwFn w repo repo.members ch.name)
      (fun wg => ed ∈ wg.graph.edges)
      (fun b2 x hb => (wgLe_processMessage rwFn w repo repo.members ch.name b2 x).2 ed hb)
      (repo.messages ch.id) m hm (fun b2 => hest b2) b
  refine ⟨?_, fun rid hrid => ⟨?_, ?_⟩, ?_⟩
  · refine liftNode _ (fun wg => ?_)
    rw [hpm wg]
    apply (wgLe_authorStep repo.members ch.name m _ _).1
    rw [hts _]
    apply (wgLe_foldl _ (wgLe_replyStep repo ch.name m) _ _).1
    simp [addNode_nodes]
  · refine liftNode _ (fun wg => ?_)
    rw [hpm wg]
    apply (wgLe_authorStep repo.members ch.name m _ _).1
    rw [hts _]
    refine (foldl_establish (replyStep repo ch.name m)
      (fun x => messageNode (repo.message rid) ch.name ∈ x.graph.nodes)
      (fun b x hb => (wgLe_replyStep repo ch.name m b x).1 _ hb)
      (repo.thread m.id) rid hrid (fun b => ?_) _)
    unfold replyStep
    simp [addNode_nodes, addEdge_nodes]
  · refine liftEdge _ (fun wg => ?_)
    rw [hpm wg]
    apply (wgLe_authorStep repo.members ch.name m _ _).2
    rw [hts _]
    refine (foldl_establish (replyStep repo ch.name m)
      (fun x => repliesEdge m (repo.message rid) ∈ x.graph.edges)
      (fun b x hb => (wgLe_replyStep repo ch.name m b x).2 _ hb)
      (repo.thread m.id) rid hrid (fun b => ?_) _)
    unfold replyStep
    simp [addNode_edges, addEdge_edges]
  · intro hlive e hedge h3 hdst
    rcases (createGraph_prov rwFn token repo w).2 e hedge h3 with
      ⟨ch2, hch2, m2, hm2, _, hlive2, a, _, rfl⟩
    have hdst2 : messageAddress m2 = messageAddress m := hdst
    have hcomp : m2.channel = m.channel ∧ m2.id = m.id := by
      have h4 := hdst2
      simp [messageAddress, messageNodeNS] at h4
      exact h4
    have hc2 : m2.channel = ch2.id := hwf1 ch2 hch2 m2 hm2
    have hc1 : m.channel = ch.id := hwf1 ch hch m hm
    have hcc : ch2.id = ch.id := by
      rw [← hc2, ← hc1, hcomp.1]
    rw [hcc] at hm2
    have : m2 = m := hwf2 m2 hm2 m hm hcomp.2
    subst this
    rw [hlive2] at hlive
    exact Bool.true_eq_false.mp hlive

/-- C1 witness: in the flag-passing starter scenario with no reaction rows
and no mentions, the starter node, the reply node and the RepliesTo edge
are all in the output, and no AuthorsMessage edge points at the
starter. -/
theorem c1_thread_starter_witness :
    messageNode msgStarterFlagged "general"
      ∈ (createGraph rwFn0 "t" repoStarterFlagged w0).graph.nodes
    ∧ messageNode msgReply2 "general"
      ∈ (createGraph rwFn0 "t" repoStarterFlagged w0).graph.nodes
    ∧ repliesEdge msgStarterFlagged msgReply2
      ∈ (createGraph rwFn0 "t" repoStarterFlagged w0).graph.edges := by
  have h := c1_thread_starter rwFn0 "t" repoStarterFlagged w0 chanGeneral
    msgStarterFlagged (by decide) (by decide) (by decide) (by decide)
    (by decide) (by decide)
  have h2 := h.2.1 "2" (by decide)
  exact ⟨h.1, h2.1, h2.2⟩

end Slack
